import Mathlib

/-!
Shallow embedding of `src/request.rs` (the `Request` type of the tide web
framework) together with proofs about its behaviour.

Conventions of the embedding:
* Rust byte values are `Nat` (with the relevant bounds handled explicitly).
* A fallible Rust `Result` is `Except`; a Rust panic (`unwrap` / `expect` on
  an empty value) is modelled by the `Panics` result type below, carrying the
  panic message.
* The generic serde decoders (`serde_qs`, `FromStr`) that the source merely
  delegates to are passed in as explicit function arguments; their error
  display (`format!`) is the `String` carried by `Except.error`.
* The single-pass body stream is modelled by explicit state passing: a method
  that drains the body returns the result together with the updated request.
-/

deriving instance DecidableEq for Except

namespace Tide

/-- Outcome of a Rust computation that may panic: either a normal value or a
panic carrying the panic message. -/
inductive Panics (α : Type) where
  | panicked (msg : String)
  | value (a : α)
deriving DecidableEq

/-- Model of `route_recognizer::Params`: a finite map from route-parameter
names to matched string values. -/
abbrev Params := List (String × String)

/-- `Params::find(key)`: the value bound to `key`, if any. -/
def Params.find (p : Params) (key : String) : Option String :=
  (List.find? (fun e => e.1 = key) p).map (fun e => e.2)

/-- Model of the `http_service::Body` stream: the bytes still to be yielded,
followed optionally by a terminal I/O error (message).  `err = none` means the
stream ends cleanly, i.e. the body is readable exactly once. -/
structure Body where
  data : List Nat
  err : Option String
deriving DecidableEq

/-- Model of `std::io::Error` as it is used in `request.rs`:
`invalidData` is `ErrorKind::InvalidData`, `other` is
`Error::new(ErrorKind::Other, msg)`, `readErr` is an error produced by the
underlying body stream. -/
inductive IOErr where
  | invalidData
  | other (msg : String)
  | readErr (msg : String)
deriving DecidableEq

/-- Message carried by an I/O error (the `Display` of `std::io::Error`). -/
def IOErr.msg : IOErr → String
  | .invalidData => "invalid data"
  | .other m => m
  | .readErr m => m

/-- `read_to_end` on the body stream: on success yields all remaining bytes
and leaves the stream exhausted; a terminal stream error is returned as an
`Err`. -/
def Body.read_to_end (b : Body) : Except IOErr (List Nat) × Body :=
  match b.err with
  | some m => (.error (.readErr m), { data := [], err := none })
  | none => (.ok b.data, { data := [], err := none })

/-- Model of `http::Extensions`, the type-keyed extension map: keys are type
identities (`Nat` stands for `TypeId`), and at most one value is stored per
key.  `V` is the universe of storable values. -/
structure AnyMap (V : Type) where
  entries : List (Nat × V)
deriving DecidableEq

/-- `Extensions::get::<T>()`: the value stored under the type key, if any. -/
def AnyMap.get {V : Type} (m : AnyMap V) (k : Nat) : Option V :=
  (List.find? (fun e => e.1 = k) m.entries).map (fun e => e.2)

/-- `Extensions::insert::<T>(v)`: store `v` under the type key, replacing any
previous value of that type. -/
def AnyMap.insert {V : Type} (m : AnyMap V) (k : Nat) (v : V) : AnyMap V :=
  ⟨(k, v) :: m.entries.filter (fun e => ¬ e.1 = k)⟩

/-- Model of `cookie::Cookie`: a name/value pair. -/
structure Cookie where
  name : String
  value : String
deriving DecidableEq

/-- `CookieJar::get(name)`: the first cookie with the given name. -/
def jarGet (jar : List Cookie) (name : String) : Option Cookie :=
  List.find? (fun c => c.name = name) jar

/-- Model of `crate::middleware::cookies::CookieData`: an `RwLock`-protected
cookie jar.  `poisoned` models a poisoned lock (a panic of a previous holder),
on which `read().unwrap()` panics. -/
structure CookieData where
  jar : List Cookie
  poisoned : Bool
deriving DecidableEq

/-- Universe of extension-map values used when the claims need a concrete
instantiation: the cookie middleware's `CookieData` plus some other types. -/
inductive ExtVal where
  | cookieData (cd : CookieData)
  | str (s : String)
  | num (n : Nat)
deriving DecidableEq

/-- The `TypeId` of `CookieData` in the extension map. -/
def cookieDataTypeId : Nat := 0

/-- A byte is acceptable to `http::HeaderValue::to_str`: visible ASCII or
horizontal tab. -/
def visibleAscii (b : Nat) : Bool := (32 ≤ b && b < 127) || b = 9

/-- `HeaderValue::to_str()`: succeeds iff every byte is visible ASCII (or
tab), yielding the corresponding ASCII string. -/
def headerValueToStr (bs : List Nat) : Option String :=
  if bs.all visibleAscii then some ⟨bs.map Char.ofNat⟩ else none

/-- ASCII lowercasing of one character (header names are ASCII). -/
def lowerChar (c : Char) : Char :=
  if 65 ≤ c.toNat ∧ c.toNat ≤ 90 then Char.ofNat (c.toNat + 32) else c

/-- ASCII lowercasing of a header name (`HeaderName` normalization). -/
def lowerStr (s : String) : String := ⟨s.data.map lowerChar⟩

/-- `HeaderMap::get(key)`: the first value stored for the given header name
(header-name comparison is case-insensitive). -/
def headerMapGet (hs : List (String × List Nat)) (key : String) : Option (List Nat) :=
  (List.find? (fun h => lowerStr h.1 = lowerStr key) hs).map (fun h => h.2)

/-- Model of `tide::Response` as `query` uses it: a status code and a string
body (`Response::new(status).body_string(body)`). -/
structure Response where
  status : Nat
  body : String
deriving DecidableEq

/-- Model of `crate::error::Error` as `request.rs` uses it: an error wrapping
an HTTP response (`Error::from(response)`). -/
inductive TideError where
  | fromResponse (resp : Response)
deriving DecidableEq

/-- Model of `tide::Request<State>`.  The inner `http_service::Request` is
flattened into its components used by this file: method, the query component
of the URI (`uri().query()`), the header map, the extension map and the body
stream.  `V` is the universe of extension values. -/
structure Request (State V : Type) where
  state : State
  method : String
  uriQuery : Option String
  headers : List (String × List Nat)
  extensions : AnyMap V
  body : Body
  route_params : List Params

/-- `Request::header(key)`: first value for the header name, passed through
`to_str().unwrap()` — absent header gives `none`, a value that is not visible
ASCII makes `unwrap` panic. -/
def Request.header {S V : Type} (r : Request S V) (key : String) : Panics (Option String) :=
  match headerMapGet r.headers key with
  | none => .value none
  | some bs =>
    match headerValueToStr bs with
    | some s => .value (some s)
    | none => .panicked "called Result::unwrap on an Err value"

/-- `Request::local::<T>()`: the extension value stored under the type key. -/
def Request.getLocal {S V : Type} (r : Request S V) (k : Nat) : Option V :=
  r.extensions.get k

/-- `Request::set_local::<T>(val)`: store `val` in the extension map and
return the updated request (builder style). -/
def Request.set_local {S V : Type} (r : Request S V) (k : Nat) (v : V) : Request S V :=
  { r with extensions := r.extensions.insert k v }

/-- The lookup inside `Request::param`:
`route_params.iter().rev().filter_map(|params| params.find(key)).next()`. -/
def paramLookup (ps : List Params) (key : String) : Option String :=
  (ps.reverse.filterMap (fun p => p.find key)).head?

/-- `Request::param::<T>(key)`: innermost-first lookup, `unwrap` (panicking
when the name is bound in no table), then `parse` into `T`.  The `FromStr`
parser of the target type is the explicit argument `parse`. -/
def Request.param {S V E T : Type} (r : Request S V) (parse : String → Except E T)
    (key : String) : Panics (Except E T) :=
  match paramLookup r.route_params key with
  | none => .panicked "called Option::unwrap on a None value"
  | some s => .value (parse s)

/-- `Request::rest()`: the reserved rest-of-path parameter of the innermost
table. -/
def Request.rest {S V : Type} (r : Request S V) : Option String :=
  r.route_params.getLast?.bind (fun p => p.find "--tide-path-rest")

/-- `Request::body_bytes()`: drain the body stream into a byte buffer;
returns the updated request alongside (explicit state passing). -/
def Request.body_bytes {S V : Type} (r : Request S V) :
    Except IOErr (List Nat) × Request S V :=
  match r.body.read_to_end with
  | (res, b) => (res, { r with body := b })

/-- Is `b` a UTF-8 continuation byte (`10xxxxxx`)? -/
def utf8Cont (b : Nat) : Bool := 128 ≤ b && b < 192

/-- Decode one UTF-8 scalar value from a lead byte `b` and the following
bytes `rest`: the scalar and the bytes left over, or `none` on malformed
input.  Truncated sequences, bad lead or continuation bytes, overlong
encodings, surrogates and values above `0x10FFFF` are all rejected, as in
Rust's `String::from_utf8`. -/
def utf8Step (b : Nat) (rest : List Nat) : Option (Nat × List Nat) :=
  if b < 128 then some (b, rest)
  else if b < 194 then none
  else if b < 224 then
    match rest with
    | b1 :: rest2 =>
      if utf8Cont b1 then some ((b - 192) * 64 + (b1 - 128), rest2) else none
    | [] => none
  else if b < 240 then
    match rest with
    | b1 :: b2 :: rest2 =>
      if utf8Cont b1 && utf8Cont b2 then
        let cp := (b - 224) * 4096 + (b1 - 128) * 64 + (b2 - 128)
        if cp < 2048 then none
        else if 55296 ≤ cp && cp < 57344 then none
        else some (cp, rest2)
      else none
    | _ => none
  else if b < 245 then
    match rest with
    | b1 :: b2 :: b3 :: rest2 =>
      if utf8Cont b1 && utf8Cont b2 && utf8Cont b3 then
        let cp := (b - 240) * 262144 + (b1 - 128) * 4096 + (b2 - 128) * 64 + (b3 - 128)
        if cp < 65536 then none
        else if 1114112 ≤ cp then none
        else some (cp, rest2)
      else none
    | _ => none
  else none

/-- UTF-8 decoding with explicit fuel (each step consumes at least one byte,
so `l.length` is always enough fuel; see `utf8DecodeAux_congr`). -/
def utf8DecodeAux : Nat → List Nat → Option (List Nat)
  | _, [] => some []
  | 0, _ :: _ => none
  | fuel + 1, b :: rest =>
    match utf8Step b rest with
    | none => none
    | some (cp, rest2) => (utf8DecodeAux fuel rest2).map (fun t => cp :: t)

/-- `String::from_utf8` validation/decoding, on byte lists: the list of
Unicode scalar values, or `none` when the bytes are not valid UTF-8. -/
def utf8Decode (l : List Nat) : Option (List Nat) := utf8DecodeAux l.length l

/-- A valid Unicode scalar value: below `0x110000` and not a surrogate. -/
def ValidScalar (v : Nat) : Prop := v < 1114112 ∧ ¬ (55296 ≤ v ∧ v < 57344)

instance (v : Nat) : Decidable (ValidScalar v) := by
  unfold ValidScalar
  infer_instance

/-- The standard UTF-8 encoding of one Unicode scalar value. -/
def utf8EncodeChar (v : Nat) : List Nat :=
  if v < 128 then [v]
  else if v < 2048 then [192 + v / 64, 128 + v % 64]
  else if v < 65536 then [224 + v / 4096, 128 + v / 64 % 64, 128 + v % 64]
  else [240 + v / 262144, 128 + v / 4096 % 64, 128 + v / 64 % 64, 128 + v % 64]

/-- The UTF-8 encoding of a sequence of scalar values. -/
def utf8Encode : List Nat → List Nat
  | [] => []
  | c :: cs => utf8EncodeChar c ++ utf8Encode cs

/-- `Request::body_string()`: drain the bytes, then decode them as UTF-8.  A
decode failure is mapped to `ErrorKind::InvalidData` (the `?` conversion of
`std::io::ErrorKind`).  The decoded string is represented by its list of
Unicode scalar values. -/
def Request.body_string {S V : Type} (r : Request S V) :
    Except IOErr (List Nat) × Request S V :=
  match r.body_bytes with
  | (.error e, r2) => (.error e, r2)
  | (.ok bytes, r2) =>
    match utf8Decode bytes with
    | some s => (.ok s, r2)
    | none => (.error .invalidData, r2)

/-- `Request::query::<T>()`: deserialize the URI's query component (absent
query treated as the empty string) with `serde_qs::from_str`; a decode error
`e` becomes `Error::from(Response::new(400).body_string(format of e))`.  The
`serde_qs` decoder for the target type is the explicit argument `deser`, its
error display the carried `String`. -/
def Request.query {S V T : Type} (r : Request S V)
    (deser : String → Except String T) : Except TideError T :=
  match deser (r.uriQuery.getD "") with
  | .ok v => .ok v
  | .error e => .error (.fromResponse ⟨400, e⟩)

/-- `Request::body_form::<T>()`: drain the body bytes (read errors wrapped as
`ErrorKind::Other`), then deserialize with `serde_qs::from_bytes`; a decode
error `e` becomes an `ErrorKind::Other` error with message
`"could not decode form: "` followed by the display of `e`. -/
def Request.body_form {S V T : Type} (r : Request S V)
    (deser : List Nat → Except String T) : Except IOErr T × Request S V :=
  match r.body_bytes with
  | (.error e, r2) => (.error (.other e.msg), r2)
  | (.ok bytes, r2) =>
    match deser bytes with
    | .error e => (.error (.other ("could not decode form: " ++ e)), r2)
    | .ok v => (.ok v, r2)

/-- `Request::cookie(name)`: fetch `CookieData` from the extension map
(`expect` panics when the cookie middleware did not store it), take the read
lock (`read().unwrap()` panics on a poisoned lock), and return a clone of the
named cookie, wrapped in `Ok`. -/
def Request.cookie {S : Type} (r : Request S ExtVal) (name : String) :
    Panics (Except TideError (Option Cookie)) :=
  match r.getLocal cookieDataTypeId with
  | some (ExtVal.cookieData cd) =>
    if cd.poisoned then .panicked "lock poisoned"
    else .value (.ok (jarGet cd.jar name))
  | _ => .panicked "should always be set by the cookies middleware"

/-! ## Helper lemmas -/

/-- Spec-side description of route-parameter lookup: the value bound in the
innermost (last, most recently pushed) table that contains the name, the
tables being ordered outermost first. -/
def innermostParamValue : List Params → String → Option String
  | [], _ => none
  | p :: ps, key =>
    match innermostParamValue ps key with
    | some v => some v
    | none => p.find key

/-! Concrete sample data used by the witness theorems. -/

/-- A concrete sample request. -/
def baseReq : Request Unit ExtVal where
  state := ()
  method := "GET"
  uriQuery := none
  headers := [("x-forwarded-for", [49, 50, 55])]
  extensions := ⟨[]⟩
  body := { data := [104, 105], err := none }
  route_params := []

/-- A request matched by two nested routers that both bind `id`: the outer
table (first) binds it to `"1"`, the inner table (last) to `"42"`. -/
def nestedReq : Request Unit ExtVal :=
  { baseReq with route_params := [[("id", "1")], [("id", "42")]] }

/-- A request whose header value is not representable as text (byte 200). -/
def badHeaderReq : Request Unit ExtVal :=
  { baseReq with headers := [("x-token", [200])] }

/-- A sample cookie jar. -/
def sampleJar : List Cookie := [⟨"session", "abc"⟩, ⟨"theme", "dark"⟩]

/-- A request on which the cookie middleware has run: the extension map holds
a `CookieData` entry. -/
def cookieReq : Request Unit ExtVal :=
  { baseReq with
    extensions := ⟨[(cookieDataTypeId, ExtVal.cookieData ⟨sampleJar, false⟩)]⟩ }

/-- A sample `FromStr` parser (`u32::from_str`-like) on small inputs. -/
def parseNat (s : String) : Except String Nat :=
  if s = "1" then .ok 1
  else if s = "5" then .ok 5
  else if s = "42" then .ok 42
  else .error ("invalid digit found in string " ++ s)

/-- A sample `serde_qs` query decoder: the target type has one optional
field, so the empty query succeeds with the default value. -/
def qsDecSample (s : String) : Except String Nat :=
  if s = "" then .ok 0
  else if s = "n=5" then .ok 5
  else .error ("failed to parse query " ++ s)

/-- A sample `serde_qs` form decoder on body bytes. -/
def formDecSample (bs : List Nat) : Except String Nat :=
  if bs = [110, 61, 53] then .ok 5 else .error "missing field n"

theorem head?_append_or {α : Type} (l1 l2 : List α) :
    (l1 ++ l2).head? = l1.head?.or l2.head? := by
  cases l1 <;> rfl

theorem innermostParamValue_cons (p : Params) (ps : List Params) (key : String) :
    innermostParamValue (p :: ps) key = (innermostParamValue ps key).or (p.find key) := by
  cases h : innermostParamValue ps key <;> simp [innermostParamValue, h, Option.or]

theorem paramLookup_eq_innermost (ps : List Params) (key : String) :
    paramLookup ps key = innermostParamValue ps key := by
  induction ps with
  | nil => rfl
  | cons p ps ih =>
    unfold paramLookup at ih ⊢
    rw [List.reverse_cons, List.filterMap_append, head?_append_or, ih,
      innermostParamValue_cons]
    cases h : p.find key <;> simp [List.filterMap_cons, h]

theorem paramLookup_eq_none_iff (ps : List Params) (key : String) :
    paramLookup ps key = none ↔ ∀ p ∈ ps, p.find key = none := by
  unfold paramLookup
  rw [List.head?_eq_none_iff, List.filterMap_eq_nil_iff]
  simp [List.mem_reverse]

theorem utf8Step_length {b cp : Nat} {rest rest2 : List Nat}
    (h : utf8Step b rest = some (cp, rest2)) : rest2.length ≤ rest.length := by
  unfold utf8Step at h
  repeat' split at h
  all_goals simp_all
  all_goals omega

theorem utf8DecodeAux_congr :
    ∀ (fuel fuel' : Nat) (l : List Nat), l.length ≤ fuel → l.length ≤ fuel' →
      utf8DecodeAux fuel l = utf8DecodeAux fuel' l := by
  intro fuel
  induction fuel with
  | zero =>
    intro fuel' l hl _
    have hnil : l = [] := by
      cases l with
      | nil => rfl
      | cons a as => simp at hl
    subst hnil
    cases fuel' <;> rfl
  | succ f ih =>
    intro fuel' l hl hl'
    cases l with
    | nil => cases fuel' <;> rfl
    | cons b rest =>
      cases fuel' with
      | zero => simp at hl'
      | succ f2 =>
        simp only [utf8DecodeAux]
        cases hs : utf8Step b rest with
        | none => rfl
        | some pr =>
          obtain ⟨cp, rest2⟩ := pr
          have h2 : rest2.length ≤ rest.length := utf8Step_length hs
          simp only [List.length_cons] at hl hl'
          dsimp only
          rw [ih f2 rest2 (by omega) (by omega)]

/-- One-step unfolding of `utf8Decode` on a nonempty byte list. -/
theorem utf8Decode_cons (b : Nat) (rest : List Nat) :
    utf8Decode (b :: rest) =
      match utf8Step b rest with
      | none => none
      | some (cp, rest2) => (utf8Decode rest2).map (fun t => cp :: t) := by
  show utf8DecodeAux (rest.length + 1) (b :: rest) = _
  simp only [utf8DecodeAux]
  cases hs : utf8Step b rest with
  | none => rfl
  | some pr =>
    obtain ⟨cp, rest2⟩ := pr
    have h2 : rest2.length ≤ rest.length := utf8Step_length hs
    dsimp only
    rw [utf8DecodeAux_congr rest.length rest2.length rest2 (by omega) (by omega)]
    rfl

theorem utf8Decode_encodeChar (v : Nat) (hv : ValidScalar v) (rest : List Nat) :
    utf8Decode (utf8EncodeChar v ++ rest) = (utf8Decode rest).map (fun t => v :: t) := by
  obtain ⟨hlt, hsur⟩ := hv
  unfold utf8EncodeChar
  by_cases h1 : v < 128
  · rw [if_pos h1]
    simp only [List.cons_append, List.nil_append]
    rw [utf8Decode_cons]
    have hs : utf8Step v rest = some (v, rest) := by
      unfold utf8Step
      rw [if_pos h1]
    rw [hs]
  · rw [if_neg h1]
    by_cases h2 : v < 2048
    · rw [if_pos h2]
      simp only [List.cons_append, List.nil_append]
      rw [utf8Decode_cons]
      have hs : utf8Step (192 + v / 64) ((128 + v % 64) :: rest) = some (v, rest) := by
        unfold utf8Step
        rw [if_neg (by omega), if_neg (by omega), if_pos (by omega)]
        have hc : utf8Cont (128 + v % 64) = true := by
          simp only [utf8Cont, Bool.and_eq_true, decide_eq_true_eq]
          omega
        simp only [hc, if_true]
        have harith : (192 + v / 64 - 192) * 64 + (128 + v % 64 - 128) = v := by omega
        rw [harith]
      rw [hs]
    · rw [if_neg h2]
      by_cases h3 : v < 65536
      · rw [if_pos h3]
        simp only [List.cons_append, List.nil_append]
        rw [utf8Decode_cons]
        have hs : utf8Step (224 + v / 4096) ((128 + v / 64 % 64) :: (128 + v % 64) :: rest) =
            some (v, rest) := by
          unfold utf8Step
          rw [if_neg (by omega), if_neg (by omega), if_neg (by omega), if_pos (by omega)]
          have hc : (utf8Cont (128 + v / 64 % 64) && utf8Cont (128 + v % 64)) = true := by
            simp only [utf8Cont, Bool.and_eq_true, decide_eq_true_eq]
            omega
          simp only [hc, if_true]
          have harith : (224 + v / 4096 - 224) * 4096 + (128 + v / 64 % 64 - 128) * 64 +
              (128 + v % 64 - 128) = v := by omega
          simp only [harith]
          rw [if_neg (by omega),
            if_neg (by simp only [Bool.and_eq_true, decide_eq_true_eq]; omega)]
        rw [hs]
      · rw [if_neg h3]
        simp only [List.cons_append, List.nil_append]
        rw [utf8Decode_cons]
        have hs : utf8Step (240 + v / 262144)
            ((128 + v / 4096 % 64) :: (128 + v / 64 % 64) :: (128 + v % 64) :: rest) =
            some (v, rest) := by
          unfold utf8Step
          rw [if_neg (by omega), if_neg (by omega), if_neg (by omega), if_neg (by omega),
            if_pos (by omega)]
          have hc : (utf8Cont (128 + v / 4096 % 64) && utf8Cont (128 + v / 64 % 64) &&
              utf8Cont (128 + v % 64)) = true := by
            simp only [utf8Cont, Bool.and_eq_true, decide_eq_true_eq]
            omega
          simp only [hc, if_true]
          have harith : (240 + v / 262144 - 240) * 262144 + (128 + v / 4096 % 64 - 128) * 4096 +
              (128 + v / 64 % 64 - 128) * 64 + (128 + v % 64 - 128) = v := by omega
          simp only [harith]
          rw [if_neg (by omega), if_neg (by omega)]
        rw [hs]

/-- Decoding is a left inverse of encoding on sequences of valid Unicode
scalar values: UTF-8 decoding recovers exactly the encoded string. -/
theorem utf8Decode_utf8Encode (cps : List Nat) (h : ∀ c ∈ cps, ValidScalar c) :
    utf8Decode (utf8Encode cps) = some cps := by
  induction cps with
  | nil => rfl
  | cons c cs ih =>
    have hc : ValidScalar c := h c (by simp)
    have hcs : ∀ x ∈ cs, ValidScalar x := fun x hx => h x (by simp [hx])
    simp only [utf8Encode]
    rw [utf8Decode_encodeChar c hc, ih hcs]
    rfl

/-! ## Claim theorems -/

/-- C1: for every request whose body is readable exactly once (the stream has
no terminal error), the first call to `body_bytes` returns the body `B` with
`Ok`, and a second call after the stream is exhausted returns the empty byte
sequence with `Ok`, never an error. -/
theorem body_bytes_first_then_empty {S V : Type} (r : Request S V)
    (h : r.body.err = none) :
    (r.body_bytes).1 = .ok r.body.data ∧
    ((r.body_bytes).2.body_bytes).1 = .ok ([] : List Nat) := by
  constructor <;> simp [Request.body_bytes, Body.read_to_end, h]

theorem body_bytes_first_then_empty_witness :
    baseReq.body.err = none ∧
    (baseReq.body_bytes).1 = .ok [104, 105] ∧
    ((baseReq.body_bytes).2.body_bytes).1 = .ok ([] : List Nat) :=
  ⟨rfl, (body_bytes_first_then_empty baseReq rfl).1,
    (body_bytes_first_then_empty baseReq rfl).2⟩

/-- C2: with the route-parameter tables ordered outermost first, `param`
searches from the innermost (last pushed) table outwards and returns the
value of the innermost table containing the name, so a nested router's
parameter shadows an outer router's same-named parameter. -/
theorem param_innermost_shadows {S V E T : Type} (r : Request S V)
    (parse : String → Except E T) (key v : String)
    (hv : innermostParamValue r.route_params key = some v) :
    r.param parse key = .value (parse v) := by
  unfold Request.param
  rw [paramLookup_eq_innermost, hv]

theorem param_innermost_shadows_witness :
    innermostParamValue nestedReq.route_params "id" = some "42" ∧
    nestedReq.param parseNat "id" = .value (.ok 42) := by
  refine ⟨by decide, ?_⟩
  rw [param_innermost_shadows nestedReq parseNat "id" "42" (by decide)]
  decide

/-- C5: `set_local` of a value `v` followed by `getLocal` at the same type
yields `v`; calling `set_local` again at the same type with `v2` overwrites,
so a subsequent `getLocal` returns `v2`, not `v`. -/
theorem set_local_then_get {S V : Type} (r : Request S V) (k : Nat) (v v2 : V) :
    (r.set_local k v).getLocal k = some v ∧
    ((r.set_local k v).set_local k v2).getLocal k = some v2 ∧
    (v ≠ v2 → ((r.set_local k v).set_local k v2).getLocal k ≠ some v) := by
  have h1 : (r.set_local k v).getLocal k = some v := by
    simp [Request.set_local, Request.getLocal, AnyMap.get, AnyMap.insert]
  have h2 : ((r.set_local k v).set_local k v2).getLocal k = some v2 := by
    simp [Request.set_local, Request.getLocal, AnyMap.get, AnyMap.insert]
  refine ⟨h1, h2, ?_⟩
  intro hne hcontra
  rw [h2] at hcontra
  exact hne (Option.some.inj hcontra).symm

theorem set_local_then_get_witness :
    (baseReq.set_local 1 (ExtVal.str "a")).getLocal 1 = some (ExtVal.str "a") ∧
    ((baseReq.set_local 1 (ExtVal.str "a")).set_local 1 (ExtVal.str "b")).getLocal 1 =
      some (ExtVal.str "b") ∧
    ((baseReq.set_local 1 (ExtVal.str "a")).set_local 1 (ExtVal.str "b")).getLocal 1 ≠
      some (ExtVal.str "a") :=
  ⟨(set_local_then_get baseReq 1 (ExtVal.str "a") (ExtVal.str "b")).1,
    (set_local_then_get baseReq 1 (ExtVal.str "a") (ExtVal.str "b")).2.1,
    (set_local_then_get baseReq 1 (ExtVal.str "a") (ExtVal.str "b")).2.2 (by decide)⟩

/-- C3: `param` returns an `Err` carrying the parse error exactly when the
name is found in some route-parameter table (innermost first) but its string
value fails to parse, and panics exactly when the name is present in no
table. -/
theorem param_error_and_panic_iff {S V E T : Type} (r : Request S V)
    (parse : String → Except E T) (key : String) :
    ((∃ e, r.param parse key = .value (.error e)) ↔
      (∃ v, paramLookup r.route_params key = some v ∧ ∃ e, parse v = .error e)) ∧
    ((∃ m, r.param parse key = .panicked m) ↔ ∀ p ∈ r.route_params, p.find key = none) := by
  unfold Request.param
  cases h : paramLookup r.route_params key with
  | none =>
    refine ⟨by simp, ?_⟩
    rw [← paramLookup_eq_none_iff, h]
    simp
  | some s =>
    refine ⟨by simp, ?_, ?_⟩
    · rintro ⟨m, hm⟩
      simp at hm
    · intro hall
      exfalso
      have hnone := (paramLookup_eq_none_iff r.route_params key).mpr hall
      rw [h] at hnone
      exact Option.noConfusion hnone

theorem param_error_and_panic_iff_witness :
    (∃ e, ({ baseReq with route_params := [[("name", "alice")]] } :
      Request Unit ExtVal).param parseNat "name" = Panics.value (.error e)) ∧
    (∃ m, baseReq.param parseNat "id" = Panics.panicked m) := by
  constructor
  · exact (param_error_and_panic_iff _ parseNat "name").1.mpr
      ⟨"alice", by decide, "invalid digit found in string alice", by decide⟩
  · exact (param_error_and_panic_iff baseReq parseNat "id").2.mpr (by simp [baseReq])

/-- C4: `query` deserializes the URI's query component, substituting the
empty string when the URI has none (so an all-optional target decodes
successfully), and on decode failure returns a framework error wrapping an
HTTP 400 response whose body is the decode error message. -/
theorem query_empty_default_and_400 {S V T : Type} (r : Request S V)
    (deser : String → Except String T) :
    (∀ d, r.uriQuery = none → deser "" = .ok d → r.query deser = .ok d) ∧
    (∀ v, deser (r.uriQuery.getD "") = .ok v → r.query deser = .ok v) ∧
    (∀ e, deser (r.uriQuery.getD "") = .error e →
      r.query deser = .error (.fromResponse { status := 400, body := e })) := by
  refine ⟨?_, ?_, ?_⟩
  · intro d hq hd
    simp [Request.query, hq, hd]
  · intro v hv
    simp [Request.query, hv]
  · intro e he
    simp [Request.query, he]

theorem query_empty_default_and_400_witness :
    baseReq.query qsDecSample = .ok 0 ∧
    ({ baseReq with uriQuery := some "n=5" } : Request Unit ExtVal).query qsDecSample = .ok 5 ∧
    ({ baseReq with uriQuery := some "x=" } : Request Unit ExtVal).query qsDecSample =
      .error (.fromResponse { status := 400, body := "failed to parse query x=" }) :=
  ⟨(query_empty_default_and_400 baseReq qsDecSample).1 0 rfl (by decide),
    (query_empty_default_and_400 _ qsDecSample).2.1 5 (by decide),
    (query_empty_default_and_400 _ qsDecSample).2.2 "failed to parse query x=" (by decide)⟩

/-- C6: for the byte sequence drained from the body, `body_string` returns
`Ok` with the exact decoded string when the bytes are valid UTF-8 (in
particular it recovers any encoded scalar-value sequence exactly), and fails
with the data-format error `InvalidData` when they are not. -/
theorem body_string_utf8_spec {S V : Type} (r : Request S V) (h : r.body.err = none) :
    (∀ s, utf8Decode r.body.data = some s → (r.body_string).1 = .ok s) ∧
    (utf8Decode r.body.data = none → (r.body_string).1 = .error .invalidData) ∧
    (∀ cps, (∀ c ∈ cps, ValidScalar c) → r.body.data = utf8Encode cps →
      (r.body_string).1 = .ok cps) := by
  have hb : r.body_bytes = (.ok r.body.data, { r with body := { data := [], err := none } }) := by
    simp [Request.body_bytes, Body.read_to_end, h]
  refine ⟨?_, ?_, ?_⟩
  · intro s hs
    simp [Request.body_string, hb, hs]
  · intro hn
    simp [Request.body_string, hb, hn]
  · intro cps hv he
    have hd : utf8Decode r.body.data = some cps := by
      rw [he]
      exact utf8Decode_utf8Encode cps hv
    simp [Request.body_string, hb, hd]

theorem body_string_utf8_spec_witness :
    (baseReq.body_string).1 = .ok [104, 105] ∧
    (({ baseReq with body := { data := [200], err := none } } :
        Request Unit ExtVal).body_string).1 = .error .invalidData :=
  ⟨(body_string_utf8_spec baseReq rfl).1 [104, 105] (by decide),
    (body_string_utf8_spec _ rfl).2.1 (by decide)⟩

/-- C7: when the cookie middleware has stored the `CookieData` extension
entry (and the jar lock is healthy), `cookie(name)` returns `Some` of a clone
of the named cookie when present in the jar and `None` when absent; when the
entry is missing from the extension map, `cookie` panics (assertion failure)
rather than returning a per-request error. -/
theorem cookie_lookup_spec {S : Type} (r : Request S ExtVal) (name : String) :
    (∀ cd, r.getLocal cookieDataTypeId = some (ExtVal.cookieData cd) → cd.poisoned = false →
      ((∀ c, jarGet cd.jar name = some c →
          r.cookie name = .value (.ok (some c)) ∧ c.name = name ∧ c ∈ cd.jar) ∧
        ((∀ c ∈ cd.jar, c.name ≠ name) → r.cookie name = .value (.ok none)))) ∧
    (r.getLocal cookieDataTypeId = none →
      r.cookie name = .panicked "should always be set by the cookies middleware") := by
  constructor
  · intro cd hcd hp
    constructor
    · intro c hc
      refine ⟨by simp [Request.cookie, hcd, hp, hc], ?_, ?_⟩
      · have hpc := List.find?_some hc
        exact of_decide_eq_true hpc
      · exact List.mem_of_find?_eq_some hc
    · intro hnone
      have hj : jarGet cd.jar name = none := by
        unfold jarGet
        rw [List.find?_eq_none]
        intro x hx
        simp [hnone x hx]
      simp [Request.cookie, hcd, hp, hj]
  · intro hnone
    simp [Request.cookie, hnone]

theorem cookie_lookup_spec_witness :
    cookieReq.cookie "session" = .value (.ok (some ⟨"session", "abc"⟩)) ∧
    cookieReq.cookie "missing" = .value (.ok none) ∧
    baseReq.cookie "session" = .panicked "should always be set by the cookies middleware" :=
  ⟨(((cookie_lookup_spec cookieReq "session").1 ⟨sampleJar, false⟩ (by decide) rfl).1
      ⟨"session", "abc"⟩ (by decide)).1,
    ((cookie_lookup_spec cookieReq "missing").1 ⟨sampleJar, false⟩ (by decide) rfl).2
      (by decide),
    (cookie_lookup_spec baseReq "session").2 (by decide)⟩

/-- C8 counterexample: on a request carrying a header whose value byte 200 is
not representable as text, `header` panics — the failure is surfaced neither
as absence nor as an explicit decode error, contradicting the claim. -/
theorem header_nontext_panics :
    badHeaderReq.header "x-token" = .panicked "called Result::unwrap on an Err value" := by
  decide

/-- C8 (amended): `header(name)` returns the first value stored for the
header name, or `None` when the header is absent; when a value is present but
not representable as text, it panics (a fatal fault) instead of returning
absence or an error value. -/
theorem header_first_or_panic {S V : Type} (r : Request S V) (key : String) :
    (headerMapGet r.headers key = none → r.header key = .value none) ∧
    (∀ bs s, headerMapGet r.headers key = some bs → headerValueToStr bs = some s →
      r.header key = .value (some s)) ∧
    (∀ bs, headerMapGet r.headers key = some bs → headerValueToStr bs = none →
      ∃ m, r.header key = .panicked m) := by
  refine ⟨?_, ?_, ?_⟩
  · intro h
    simp [Request.header, h]
  · intro bs s h hs
    simp [Request.header, h, hs]
  · intro bs h hs
    exact ⟨"called Result::unwrap on an Err value", by simp [Request.header, h, hs]⟩

theorem header_first_or_panic_witness :
    baseReq.header "X-Forwarded-For" = .value (some "127") ∧
    baseReq.header "x-missing" = .value none ∧
    (∃ m, badHeaderReq.header "x-token" = .panicked m) :=
  ⟨(header_first_or_panic baseReq "X-Forwarded-For").2.1 [49, 50, 55] "127"
      (by decide) (by decide),
    (header_first_or_panic baseReq "x-missing").1 (by decide),
    (header_first_or_panic badHeaderReq "x-token").2.2 [200] (by decide) (by decide)⟩

/-- C9: `body_form` first drains the body bytes (the stream is left
exhausted in every outcome), and when the bytes cannot be deserialized it
fails with a data-format (`Other`) error whose message includes the
underlying decode failure reason. -/
theorem body_form_decode_error_spec {S V T : Type} (r : Request S V)
    (deser : List Nat → Except String T) :
    (r.body_form deser).2.body = { data := [], err := none } ∧
    (∀ e, r.body.err = none → deser r.body.data = .error e →
      ∃ m, (r.body_form deser).1 = .error (.other m) ∧ ∃ p, m = p ++ e) := by
  constructor
  · have hsnd : (r.body_bytes).2.body = { data := [], err := none } := by
      unfold Request.body_bytes Body.read_to_end
      cases r.body.err <;> rfl
    unfold Request.body_form
    rcases hbb : r.body_bytes with ⟨res, r2⟩
    rw [hbb] at hsnd
    cases res with
    | error e => simpa using hsnd
    | ok bytes =>
      dsimp only
      cases hd : deser bytes <;> simpa [hd] using hsnd
  · intro e h hd
    have hb : r.body_bytes =
        (.ok r.body.data, { r with body := { data := [], err := none } }) := by
      simp [Request.body_bytes, Body.read_to_end, h]
    refine ⟨"could not decode form: " ++ e, ?_, "could not decode form: ", rfl⟩
    simp [Request.body_form, hb, hd]

theorem body_form_decode_error_spec_witness :
    (baseReq.body_form formDecSample).2.body = { data := [], err := none } ∧
    (∃ m, (baseReq.body_form formDecSample).1 = .error (.other m) ∧
      ∃ p, m = p ++ "missing field n") :=
  ⟨(body_form_decode_error_spec baseReq formDecSample).1,
    (body_form_decode_error_spec baseReq formDecSample).2 "missing field n" rfl (by decide)⟩

/-- C10: whenever the `CookieData` extension entry is present and the jar
lock is acquired (not poisoned), `cookie` returns the `Ok` variant — despite
its `Result` return type, no normally-returning path produces `Err`. -/
theorem cookie_always_ok {S : Type} (r : Request S ExtVal) (name : String) (cd : CookieData)
    (hcd : r.getLocal cookieDataTypeId = some (ExtVal.cookieData cd))
    (hp : cd.poisoned = false) :
    ∃ res, r.cookie name = .value (.ok res) := by
  refine ⟨jarGet cd.jar name, ?_⟩
  simp [Request.cookie, hcd, hp]

theorem cookie_always_ok_witness :
    ∃ res, cookieReq.cookie "theme" = .value (.ok res) :=
  cookie_always_ok cookieReq "theme" ⟨sampleJar, false⟩ (by decide) rfl

end Tide
